import Mathlib

/- Verification development for the dot-field canvas animator
   (src/template/components/image-canvas.tsx).

   The embedding models JavaScript numbers as rationals.  The external
   numeric primitives Math.sqrt, Math.sin, the value-noise function
   smoothNoise (imported from lib/noise, which is not among the sources)
   and Math.random are passed as function parameters: theorems either
   quantify over them under the hypotheses the real functions satisfy, or
   instantiate them at inputs where the exact value of the real function
   is known.  Event times are natural-number milliseconds. -/

/-- A pointer-trail sample (source: interface TrailPoint). -/
structure TrailPoint where
  x : ℚ
  y : ℚ
  timestamp : ℕ
  strength : ℚ
deriving DecidableEq, Repr

/-- A particle (source: interface DotData). -/
structure DotData where
  x : ℚ
  y : ℚ
  baseX : ℚ
  baseY : ℚ
  baseSize : ℚ
  brightness : ℚ
  isAccent : Bool
  sizeMultiplier : ℚ
  twinklePhase : ℚ
  twinkleSpeed : ℚ
  vx : ℚ
  vy : ℚ
deriving DecidableEq, Repr

/-- The per-channel contrast transform of the generation pass
    (source lines 178-180):
    `Math.max(0, Math.min(255, ((data[i] / 255 - 0.5) * contrast + 0.5) * 255))`. -/
def contrastByte (contrast p : ℚ) : ℚ :=
  max 0 (min 255 (((p / 255 - 0.5) * contrast + 0.5) * 255))

/-- **C4** For every contrast value c > 0 and channel value p ∈ [0,255], the
    contrast-transformed channel lies in [0,255]; a raw value below 0 is
    clamped to 0 and a raw value above 255 is clamped to 255 (never wrapped). -/
theorem c4_contrast_clamped (c p : ℚ) (hc : 0 < c) (h0 : 0 ≤ p) (h255 : p ≤ 255) :
    0 ≤ contrastByte c p ∧ contrastByte c p ≤ 255 ∧
      (((p / 255 - 0.5) * c + 0.5) * 255 < 0 → contrastByte c p = 0) ∧
      (255 < ((p / 255 - 0.5) * c + 0.5) * 255 → contrastByte c p = 255) := by
  refine ⟨le_max_left 0 _, ?_, ?_, ?_⟩
  · exact max_le (by norm_num) (min_le_left _ _)
  · intro hlt
    have hmin : min 255 (((p / 255 - 0.5) * c + 0.5) * 255) =
        ((p / 255 - 0.5) * c + 0.5) * 255 :=
      min_eq_right (le_of_lt (lt_trans hlt (by norm_num)))
    simp [contrastByte, hmin, max_eq_left, le_of_lt hlt]
  · intro hgt
    have hmin : min 255 (((p / 255 - 0.5) * c + 0.5) * 255) = 255 :=
      min_eq_left (le_of_lt hgt)
    simp [contrastByte, hmin]

/-- Witness for C4 at c = 2, p = 0: the raw value is -127.5, clamped to 0. -/
theorem c4_contrast_clamped_witness :
    0 ≤ contrastByte 2 0 ∧ contrastByte 2 0 ≤ 255 ∧
      ((((0:ℚ) / 255 - 0.5) * 2 + 0.5) * 255 < 0 → contrastByte 2 0 = 0) ∧
      (255 < (((0:ℚ) / 255 - 0.5) * 2 + 0.5) * 255 → contrastByte 2 0 = 255) :=
  c4_contrast_clamped 2 0 (by norm_num) (by norm_num) (by norm_num)

/-- Mutable refs touched by the pointer handlers and the frame loop
    (mouseRef, isFirstMoveRef, lastMoveTimeRef, mouseTrailRef).  `clock`
    records the time of the latest processed event; it only bookkeeps the
    monotonicity of Date.now() across events. -/
structure CanvasState where
  mouseX : ℚ
  mouseY : ℚ
  prevX : ℚ
  prevY : ℚ
  isFirstMove : Bool
  lastMoveTime : ℕ
  trail : List TrailPoint
  clock : ℕ
deriving DecidableEq, Repr

/-- Initial ref values (source lines 58-63). -/
def initState : CanvasState :=
  { mouseX := -1000, mouseY := -1000, prevX := -1000, prevY := -1000,
    isFirstMove := true, lastMoveTime := 0, trail := [], clock := 0 }

/-- The interpolated trail points pushed by one mouse-move event
    (source lines 97-110): `steps = max(1, ceil(speed / 10))` samples at
    parameter `t = i / steps`, each with strength `min(speed / 10, 1)`. -/
def trailSamples (prevX prevY velX velY speed : ℚ) (now : ℕ) : List TrailPoint :=
  let steps : ℕ := (max 1 ⌈speed / 10⌉).toNat
  (List.range steps).map (fun (i : ℕ) =>
    { x := prevX + velX * ((i : ℚ) / (steps : ℚ)),
      y := prevY + velY * ((i : ℚ) / (steps : ℚ)),
      timestamp := now,
      strength := min (speed / 10) 1 })

/-- The mousemove handler (source lines 68-114).  `sqrtF` stands for
    Math.sqrt.  The first move only seeds the pointer state (early return,
    lines 78-85); later moves push `steps` interpolated samples and then
    drop entries 150ms or older (line 113). -/
def handleMouseMove (sqrtF : ℚ → ℚ) (s : CanvasState) (newX newY : ℚ) (now : ℕ) :
    CanvasState :=
  if s.isFirstMove then
    { s with mouseX := newX, mouseY := newY, prevX := newX, prevY := newY,
             isFirstMove := false, lastMoveTime := now, clock := now }
  else
    let velX := newX - s.mouseX
    let velY := newY - s.mouseY
    let speed := sqrtF (velX * velX + velY * velY)
    { mouseX := newX, mouseY := newY, prevX := s.mouseX, prevY := s.mouseY,
      isFirstMove := false, lastMoveTime := now,
      trail := (s.trail ++ trailSamples s.mouseX s.mouseY velX velY speed now).filter
        (fun p => now - p.timestamp < 150),
      clock := now }

/-- The trail-state effect of one frame tick (source lines 228-236): if at
    least 100ms passed since the last move the whole trail is discarded;
    the resulting trail is exactly what the force-accumulation step reads. -/
def frameStep (s : CanvasState) (now : ℕ) : CanvasState :=
  if now - s.lastMoveTime < 100 then { s with clock := now }
  else { s with trail := [], clock := now }

/-- States reachable from the initial refs by any interleaving of
    mouse-move events and frame ticks with nondecreasing event times. -/
inductive Reach (sqrtF : ℚ → ℚ) : CanvasState → Prop where
  | init : Reach sqrtF initState
  | move (s : CanvasState) (x y : ℚ) (now : ℕ) :
      Reach sqrtF s → s.clock ≤ now → Reach sqrtF (handleMouseMove sqrtF s x y now)
  | frame (s : CanvasState) (now : ℕ) :
      Reach sqrtF s → s.clock ≤ now → Reach sqrtF (frameStep s now)

/-- Unfolding of `handleMouseMove` for a move after the first. -/
lemma handleMouseMove_not_first (sqrtF : ℚ → ℚ) (s : CanvasState)
    (newX newY : ℚ) (now : ℕ) (h : s.isFirstMove = false) :
    handleMouseMove sqrtF s newX newY now =
      { mouseX := newX, mouseY := newY, prevX := s.mouseX, prevY := s.mouseY,
        isFirstMove := false, lastMoveTime := now,
        trail := (s.trail ++ trailSamples s.mouseX s.mouseY (newX - s.mouseX)
            (newY - s.mouseY)
            (sqrtF ((newX - s.mouseX) * (newX - s.mouseX) +
              (newY - s.mouseY) * (newY - s.mouseY))) now).filter
          (fun p => now - p.timestamp < 150),
        clock := now } := by
  simp [handleMouseMove, h]

/-- Every point pushed by one move event is stamped with the event time and
    carries the saturated strength. -/
lemma trailSamples_mem (prevX prevY velX velY speed : ℚ) (now : ℕ)
    (p : TrailPoint) (hp : p ∈ trailSamples prevX prevY velX velY speed now) :
    p.timestamp = now ∧ p.strength = min (speed / 10) 1 := by
  simp only [trailSamples, List.mem_map, List.mem_range] at hp
  obtain ⟨i, _, rfl⟩ := hp
  exact ⟨rfl, rfl⟩

/-- Trail bookkeeping invariant: the last-move time never exceeds the
    clock, the trail is empty before the first move, and every trail entry
    was created at most 150ms (strictly) before the last move. -/
lemma reach_trail_inv (sqrtF : ℚ → ℚ) (s : CanvasState) (h : Reach sqrtF s) :
    s.lastMoveTime ≤ s.clock ∧ (s.isFirstMove = true → s.trail = []) ∧
      ∀ p ∈ s.trail, p.timestamp ≤ s.lastMoveTime ∧ s.lastMoveTime - p.timestamp < 150 := by
  induction h with
  | init => simp [initState]
  | move s x y now _ hclk ih =>
    obtain ⟨ihc, ihf, ihp⟩ := ih
    cases hfirst : s.isFirstMove with
    | true =>
      have htr : s.trail = [] := ihf hfirst
      simp [handleMouseMove, hfirst, htr]
    | false =>
      rw [handleMouseMove_not_first sqrtF s x y now hfirst]
      dsimp only
      refine ⟨le_refl now, by simp, ?_⟩
      intro p hp
      obtain ⟨hmem, hpred⟩ := List.mem_filter.mp hp
      have hage : now - p.timestamp < 150 := by simpa using hpred
      rcases List.mem_append.mp hmem with hold | hnew
      · exact ⟨le_trans (ihp p hold).1 (le_trans ihc hclk), hage⟩
      · have hts := (trailSamples_mem _ _ _ _ _ _ p hnew).1
        exact ⟨le_of_eq hts, by omega⟩
  | frame s now _ hclk ih =>
    obtain ⟨ihc, ihf, ihp⟩ := ih
    by_cases hidle : now - s.lastMoveTime < 100
    · simp only [frameStep, if_pos hidle]
      exact ⟨le_trans ihc hclk, ihf, ihp⟩
    · simp only [frameStep, if_neg hidle]
      exact ⟨le_trans ihc hclk, by simp, by simp⟩

/-- **C1 (amended)** For any reachable state and any frame tick at a time
    not before the state's clock, every trail point that the
    force-accumulation step of that frame reads is strictly younger than
    250ms relative to the frame's now; the 150ms bound of the claim holds
    relative to the last move event, not the frame time. -/
theorem c1_trail_age_bound (sqrtF : ℚ → ℚ) (s : CanvasState) (now : ℕ)
    (h : Reach sqrtF s) (hclk : s.clock ≤ now) :
    ∀ p ∈ (frameStep s now).trail, now - p.timestamp < 250 := by
  obtain ⟨ihc, _, ihp⟩ := reach_trail_inv sqrtF s h
  intro p hp
  by_cases hidle : now - s.lastMoveTime < 100
  · simp only [frameStep, if_pos hidle] at hp
    have := ihp p hp
    omega
  · simp only [frameStep, if_neg hidle] at hp
    simp at hp

/-- A Math.sqrt stand-in adequate for traces whose only squared speed is 0. -/
def sqrtZero : ℚ → ℚ := fun _ => 0

/-- Evaluation of the trace: moves at t=0 (first, seeds only), t=1
    (appends a point stamped 1) and t=150 (the 150ms filter keeps the old
    point since 150-1 = 149 < 150), then a frame at t=170 (trail kept
    since 170-150 = 20 < 100). -/
lemma stale_trace_trail :
    (frameStep (handleMouseMove sqrtZero
      (handleMouseMove sqrtZero
        (handleMouseMove sqrtZero initState 0 0 0) 0 0 1) 0 0 150) 170).trail =
    [{ x := 0, y := 0, timestamp := 1, strength := 0 },
     { x := 0, y := 0, timestamp := 150, strength := 0 }] := by
  have h1 : handleMouseMove sqrtZero initState 0 0 0 =
      { mouseX := 0, mouseY := 0, prevX := 0, prevY := 0, isFirstMove := false,
        lastMoveTime := 0, trail := [], clock := 0 } := by
    norm_num [handleMouseMove, initState]
  have h2 : handleMouseMove sqrtZero
      { mouseX := 0, mouseY := 0, prevX := 0, prevY := 0, isFirstMove := false,
        lastMoveTime := 0, trail := [], clock := 0 } 0 0 1 =
      { mouseX := 0, mouseY := 0, prevX := 0, prevY := 0, isFirstMove := false,
        lastMoveTime := 1,
        trail := [{ x := 0, y := 0, timestamp := 1, strength := 0 }],
        clock := 1 } := by
    norm_num [handleMouseMove, trailSamples, sqrtZero, min_def, List.filter_cons]
  have h3 : handleMouseMove sqrtZero
      { mouseX := 0, mouseY := 0, prevX := 0, prevY := 0, isFirstMove := false,
        lastMoveTime := 1,
        trail := [{ x := 0, y := 0, timestamp := 1, strength := 0 }],
        clock := 1 } 0 0 150 =
      { mouseX := 0, mouseY := 0, prevX := 0, prevY := 0, isFirstMove := false,
        lastMoveTime := 150,
        trail := [{ x := 0, y := 0, timestamp := 1, strength := 0 },
                  { x := 0, y := 0, timestamp := 150, strength := 0 }],
        clock := 150 } := by
    norm_num [handleMouseMove, trailSamples, sqrtZero, min_def, List.filter_cons]
  rw [h1, h2, h3]
  norm_num [frameStep]

/-- **C1 counterexample** The point stamped t=1 is read by the
    force-accumulation step of the frame at t=170 although its age 169ms
    exceeds 150ms: entries strictly older than 150ms relative to the
    frame's now can be present. -/
theorem c1_stale_point_counterexample :
    ({ x := 0, y := 0, timestamp := 1, strength := 0 } : TrailPoint) ∈
      (frameStep (handleMouseMove sqrtZero
        (handleMouseMove sqrtZero
          (handleMouseMove sqrtZero initState 0 0 0) 0 0 1) 0 0 150) 170).trail ∧
      150 < 170 - (1 : ℕ) := by
  rw [stale_trace_trail]
  exact ⟨by simp, by norm_num⟩

/-- Witness for C1: the amended bound evaluated on the concrete trace: the
    point stamped 1 read by the frame at t=170 is 169ms old, below 250ms. -/
theorem c1_trail_age_bound_witness :
    170 - (({ x := 0, y := 0, timestamp := 1, strength := 0 } : TrailPoint)).timestamp < 250 :=
  c1_trail_age_bound sqrtZero
    (handleMouseMove sqrtZero
      (handleMouseMove sqrtZero
        (handleMouseMove sqrtZero initState 0 0 0) 0 0 1) 0 0 150) 170
    (Reach.move _ 0 0 150
      (Reach.move _ 0 0 1
        (Reach.move _ 0 0 0 Reach.init (by norm_num [initState])) (by decide))
      (by decide))
    (by decide)
    { x := 0, y := 0, timestamp := 1, strength := 0 }
    (by rw [stale_trace_trail]; simp)

/-- **C5** On every pointer-move event after the first, with speed the
    Euclidean distance between the previous and the new position (the two
    hypotheses on `sqrtF` characterize Math.sqrt at the squared distance),
    the handler appends exactly `max(1, ceil(speed/10))` trail points, each
    with strength `min(speed/10, 1)` and stamped with the event time, after
    the surviving old entries. -/
theorem c5_trail_interpolation (sqrtF : ℚ → ℚ) (s : CanvasState)
    (newX newY : ℚ) (now : ℕ) (hf : s.isFirstMove = false)
    (hsq : sqrtF ((newX - s.mouseX) * (newX - s.mouseX) + (newY - s.mouseY) * (newY - s.mouseY)) *
        sqrtF ((newX - s.mouseX) * (newX - s.mouseX) + (newY - s.mouseY) * (newY - s.mouseY)) =
        (newX - s.mouseX) * (newX - s.mouseX) + (newY - s.mouseY) * (newY - s.mouseY))
    (hnn : 0 ≤ sqrtF ((newX - s.mouseX) * (newX - s.mouseX) + (newY - s.mouseY) * (newY - s.mouseY))) :
    (handleMouseMove sqrtF s newX newY now).trail
      = s.trail.filter (fun p => now - p.timestamp < 150)
        ++ trailSamples s.mouseX s.mouseY (newX - s.mouseX) (newY - s.mouseY)
            (sqrtF ((newX - s.mouseX) * (newX - s.mouseX) + (newY - s.mouseY) * (newY - s.mouseY))) now
    ∧ (trailSamples s.mouseX s.mouseY (newX - s.mouseX) (newY - s.mouseY)
        (sqrtF ((newX - s.mouseX) * (newX - s.mouseX) + (newY - s.mouseY) * (newY - s.mouseY))) now).length
      = (max 1 ⌈sqrtF ((newX - s.mouseX) * (newX - s.mouseX) + (newY - s.mouseY) * (newY - s.mouseY)) / 10⌉).toNat
    ∧ ∀ p ∈ trailSamples s.mouseX s.mouseY (newX - s.mouseX) (newY - s.mouseY)
        (sqrtF ((newX - s.mouseX) * (newX - s.mouseX) + (newY - s.mouseY) * (newY - s.mouseY))) now,
        p.strength = min (sqrtF ((newX - s.mouseX) * (newX - s.mouseX) + (newY - s.mouseY) * (newY - s.mouseY)) / 10) 1
          ∧ p.timestamp = now := by
  rw [handleMouseMove_not_first sqrtF s newX newY now hf]
  dsimp only
  refine ⟨?_, ?_, ?_⟩
  · rw [List.filter_append]
    congr 1
    apply List.filter_eq_self.mpr
    intro p hp
    have hts := (trailSamples_mem _ _ _ _ _ _ p hp).1
    simp [hts]
  · simp only [trailSamples]
    rw [List.length_map, List.length_range]
  · intro p hp
    exact ⟨(trailSamples_mem _ _ _ _ _ _ p hp).2, (trailSamples_mem _ _ _ _ _ _ p hp).1⟩

/-- A Math.sqrt stand-in correct at the single squared speed 10000 of the
    witness scenario. -/
def sq100 : ℚ → ℚ := fun q => if q = 10000 then 100 else 0

/-- Witness for C5, the end-to-end scenario of the claim: after a seeding
    first move at (0,0), a jump to (100,0) (speed 100) appends exactly 10
    trail points, each with strength min(100/10, 1) = 1. -/
theorem c5_trail_interpolation_witness :
    (handleMouseMove sq100 (handleMouseMove sq100 initState 0 0 0) 100 0 5).trail
      = trailSamples 0 0 100 0 100 5
    ∧ (trailSamples 0 0 100 0 (100:ℚ) 5).length = 10
    ∧ min ((100:ℚ) / 10) 1 = 1 := by
  have hs0 : handleMouseMove sq100 initState 0 0 0 =
      { mouseX := 0, mouseY := 0, prevX := 0, prevY := 0, isFirstMove := false,
        lastMoveTime := 0, trail := [], clock := 0 } := by
    norm_num [handleMouseMove, initState]
  have h := c5_trail_interpolation sq100
      { mouseX := 0, mouseY := 0, prevX := 0, prevY := 0, isFirstMove := false,
        lastMoveTime := 0, trail := [], clock := 0 } 100 0 5 rfl
      (by norm_num [sq100]) (by norm_num [sq100])
  refine ⟨?_, ?_, by norm_num⟩
  · rw [hs0, h.1]
    norm_num [sq100]
  · have hc : ⌈(100:ℚ) / 10⌉ = 10 := by norm_num
    simp only [trailSamples]
    rw [List.length_map, List.length_range, hc]
    decide

/-- Accumulator for the per-dot force loop: the running maximum falloff and
    the total force components (locals maxDistanceFactor, totalForceX,
    totalForceY of animate). -/
structure ForceAcc where
  maxFactor : ℚ
  fx : ℚ
  fy : ℚ
deriving DecidableEq, Repr

/-- The noise-perturbed interaction radius (source lines 255-256):
    `mouseRadius * (0.7 + smoothNoise(dot.baseX, dot.baseY, 0.02, time) * 0.6)`.
    `noiseF` stands for smoothNoise. -/
def irregularRadius (noiseF : ℚ → ℚ → ℚ → ℚ → ℚ) (mouseRadius time : ℚ)
    (dot : DotData) : ℚ :=
  mouseRadius * (0.7 + noiseF dot.baseX dot.baseY 0.02 time * 0.6)

/-- The smoothstep falloff (source lines 259-260):
    `d = 1 - distance/radius; d*d*(3 - 2*d)`. -/
def smoothFall (distance radius : ℚ) : ℚ :=
  (1 - distance / radius) * (1 - distance / radius) * (3 - 2 * (1 - distance / radius))

/-- The body of the per-trail-point force loop (source lines 248-269),
    folded over the trail.  Points beyond 1.5x the mouse radius are
    skipped; inside the noise-perturbed radius the falloff is folded into
    the running maximum, and only at distance strictly above 0.1 is the
    direction normalized (division by the distance) and a repulsion force
    applied. -/
def accumPoint (sqrtF : ℚ → ℚ) (noiseF : ℚ → ℚ → ℚ → ℚ → ℚ)
    (mouseRadius repulsionStrength fadeOutFactor time : ℚ) (dot : DotData)
    (acc : ForceAcc) (p : TrailPoint) : ForceAcc :=
  let dx := p.x - dot.x
  let dy := p.y - dot.y
  let distance := sqrtF (dx * dx + dy * dy)
  if mouseRadius * 1.5 < distance then acc
  else
    let radius := irregularRadius noiseF mouseRadius time dot
    if distance < radius then
      let smoothFactor := smoothFall distance radius
      let m := max acc.maxFactor smoothFactor
      if 0.1 < distance then
        let force := repulsionStrength * smoothFactor * p.strength * 0.5 * fadeOutFactor
        { maxFactor := m, fx := acc.fx - dx / distance * force,
          fy := acc.fy - dy / distance * force }
      else
        { maxFactor := m, fx := acc.fx, fy := acc.fy }
    else acc

/-- The whole force-accumulation step of one frame for one dot
    (source lines 247-270): the fold runs only when the trail is nonempty
    and the fade-out factor exceeds 0.01. -/
def trailForces (sqrtF : ℚ → ℚ) (noiseF : ℚ → ℚ → ℚ → ℚ → ℚ)
    (mouseRadius repulsionStrength fadeOutFactor time : ℚ) (dot : DotData)
    (trail : List TrailPoint) : ForceAcc :=
  if 0 < trail.length ∧ 0.01 < fadeOutFactor then
    trail.foldl (accumPoint sqrtF noiseF mouseRadius repulsionStrength fadeOutFactor time dot)
      { maxFactor := 0, fx := 0, fy := 0 }
  else { maxFactor := 0, fx := 0, fy := 0 }

/-- The live-pointer proximity check of one frame for one dot
    (source lines 272-287): only when the pointer x-coordinate is positive
    and the pointer is inside the noise-perturbed radius is the falloff
    folded into the running maximum and the dot marked as twinkling.
    Returns the updated maximum falloff and the isTwinkling flag. -/
def pointerProximity (sqrtF : ℚ → ℚ) (noiseF : ℚ → ℚ → ℚ → ℚ → ℚ)
    (mouseRadius time mouseX mouseY : ℚ) (dot : DotData) (accMax : ℚ) : ℚ × Bool :=
  if 0 < mouseX then
    let dx := mouseX - dot.x
    let dy := mouseY - dot.y
    let distance := sqrtF (dx * dx + dy * dy)
    let radius := irregularRadius noiseF mouseRadius time dot
    if distance < radius then (max accMax (smoothFall distance radius), true)
    else (accMax, false)
  else (accMax, false)

/-- Result of one frame for one dot: the updated particle, the rendered
    opacity, and the isTwinkling flag of the proximity check. -/
structure FrameOut where
  dot : DotData
  opacity : ℚ
  isTwinkling : Bool
deriving DecidableEq, Repr

/-- One frame of the animation loop for one dot (source lines 242-311,
    with `fadeOutFactor = 1` as set at line 240): force accumulation over
    the trail, the live-pointer proximity check, velocity integration with
    the spring return force and the 0.85 damping, position update, and the
    twinkle opacity computation (`sinF` stands for Math.sin). -/
def updateDot (sqrtF sinF : ℚ → ℚ) (noiseF : ℚ → ℚ → ℚ → ℚ → ℚ)
    (mouseRadius repulsionStrength returnSpeed time mouseX mouseY : ℚ)
    (trail : List TrailPoint) (dot : DotData) : FrameOut :=
  let fadeOutFactor : ℚ := 1
  let acc := trailForces sqrtF noiseF mouseRadius repulsionStrength fadeOutFactor time dot trail
  let pm := pointerProximity sqrtF noiseF mouseRadius time mouseX mouseY dot acc.maxFactor
  let vx := (dot.vx + acc.fx + (dot.baseX - dot.x) * returnSpeed * 0.1) * 0.85
  let vy := (dot.vy + acc.fy + (dot.baseY - dot.y) * returnSpeed * 0.1) * 0.85
  let nx := dot.x + vx
  let ny := dot.y + vy
  if 0 < pm.1 then
    let phase := dot.twinklePhase + dot.twinkleSpeed
    let twinkle := sinF phase * 0.5 + 0.5
    let twinkleAmount := (0.3 + twinkle * 0.7) * pm.1 * fadeOutFactor
    { dot := { dot with x := nx, y := ny, vx := vx, vy := vy, twinklePhase := phase },
      opacity := 1 - (1 - twinkleAmount) * pm.1 * fadeOutFactor,
      isTwinkling := pm.2 }
  else
    { dot := { dot with x := nx, y := ny, vx := vx, vy := vy },
      opacity := 1,
      isTwinkling := pm.2 }

/-- **C8** In the force-accumulation step, a trail point whose distance to
    the particle is at or below the 0.1 threshold contributes no force (no
    direction normalization, hence no division by the distance, is
    performed), and a trail point exactly at the particle's position
    (distance 0, with Math.sqrt 0 = 0) leaves the forces unchanged while
    the smoothstep falloff attains its maximum 1, folded into the running
    maximum, whatever the nonnegative noise perturbation of the radius. -/
theorem c8_no_division_at_contact (sqrtF : ℚ → ℚ) (noiseF : ℚ → ℚ → ℚ → ℚ → ℚ)
    (mouseRadius repulsionStrength fadeOutFactor time : ℚ) (dot : DotData)
    (h0 : sqrtF 0 = 0) (hmr : 0 < mouseRadius)
    (hn : 0 ≤ noiseF dot.baseX dot.baseY 0.02 time) :
    (∀ (acc : ForceAcc) (p : TrailPoint),
        sqrtF ((p.x - dot.x) * (p.x - dot.x) + (p.y - dot.y) * (p.y - dot.y)) ≤ 0.1 →
        (accumPoint sqrtF noiseF mouseRadius repulsionStrength fadeOutFactor time dot acc p).fx
            = acc.fx ∧
          (accumPoint sqrtF noiseF mouseRadius repulsionStrength fadeOutFactor time dot acc p).fy
            = acc.fy) ∧
      ∀ (acc : ForceAcc) (p : TrailPoint), p.x = dot.x → p.y = dot.y →
        accumPoint sqrtF noiseF mouseRadius repulsionStrength fadeOutFactor time dot acc p
          = { maxFactor := max acc.maxFactor 1, fx := acc.fx, fy := acc.fy } := by
  constructor
  · intro acc p hd
    simp only [accumPoint]
    split_ifs with h1 h2 h3
    · exact ⟨rfl, rfl⟩
    · exact absurd h3 (by linarith)
    · exact ⟨rfl, rfl⟩
    · exact ⟨rfl, rfl⟩
  · intro acc p hx hy
    have hdx : p.x - dot.x = 0 := by rw [hx, sub_self]
    have hdy : p.y - dot.y = 0 := by rw [hy, sub_self]
    have hrad : 0 < irregularRadius noiseF mouseRadius time dot := by
      unfold irregularRadius
      nlinarith [hn, hmr]
    have hsm : smoothFall 0 (irregularRadius noiseF mouseRadius time dot) = 1 := by
      unfold smoothFall
      rw [zero_div]
      ring
    simp only [accumPoint, hdx, hdy, mul_zero, add_zero, h0]
    rw [if_neg (by nlinarith [hmr]), if_pos hrad, if_neg (by norm_num), hsm]

/-- A sample particle at (3,4) used to instantiate the animate-loop
    theorems at concrete inputs. -/
def sampleDot : DotData :=
  { x := 3, y := 4, baseX := 3, baseY := 4, baseSize := 1, brightness := 255,
    isAccent := false, sizeMultiplier := 1, twinklePhase := 0, twinkleSpeed := 0,
    vx := 0, vy := 0 }

/-- Witness for C8: a trail point exactly at the sample particle's
    position, mouse radius 100, constant noise 1/2: the forces (2,3) are
    unchanged and the maximum falloff becomes max 0 1. -/
theorem c8_no_division_at_contact_witness :
    accumPoint sqrtZero (fun _ _ _ _ => (1:ℚ)/2) 100 5 1 0 sampleDot
        { maxFactor := 0, fx := 2, fy := 3 }
        { x := 3, y := 4, timestamp := 0, strength := 1 }
      = { maxFactor := max 0 1, fx := 2, fy := 3 } :=
  (c8_no_division_at_contact sqrtZero (fun _ _ _ _ => (1:ℚ)/2) 100 5 1 0 sampleDot
      rfl (by norm_num) (by norm_num)).2
    { maxFactor := 0, fx := 2, fy := 3 }
    { x := 3, y := 4, timestamp := 0, strength := 1 } rfl rfl

/-- **C9 (amended)** In every frame, for every particle, if the live
    pointer x-coordinate is positive and the pointer lies within the
    particle's noise-perturbed interaction radius, then the particle is
    marked as twinkling and its proximity falloff is folded (as a maximum)
    into the running maximum-falloff value, independently of the trail
    (the conclusion holds for every trail, including the empty one).  The
    guard `mouseRef.current.x > 0` is part of the code's condition, which
    the original claim omits. -/
theorem c9_pointer_twinkle (sqrtF sinF : ℚ → ℚ) (noiseF : ℚ → ℚ → ℚ → ℚ → ℚ)
    (mouseRadius repulsionStrength returnSpeed time mouseX mouseY : ℚ) (dot : DotData)
    (hx : 0 < mouseX)
    (hd : sqrtF ((mouseX - dot.x) * (mouseX - dot.x) + (mouseY - dot.y) * (mouseY - dot.y)) <
        irregularRadius noiseF mouseRadius time dot) :
    (∀ accMax : ℚ,
        pointerProximity sqrtF noiseF mouseRadius time mouseX mouseY dot accMax
          = (max accMax (smoothFall
              (sqrtF ((mouseX - dot.x) * (mouseX - dot.x) + (mouseY - dot.y) * (mouseY - dot.y)))
              (irregularRadius noiseF mouseRadius time dot)), true)) ∧
      ∀ trail : List TrailPoint,
        (updateDot sqrtF sinF noiseF mouseRadius repulsionStrength returnSpeed time
          mouseX mouseY trail dot).isTwinkling = true := by
  have h1 : ∀ accMax : ℚ,
      pointerProximity sqrtF noiseF mouseRadius time mouseX mouseY dot accMax
        = (max accMax (smoothFall
            (sqrtF ((mouseX - dot.x) * (mouseX - dot.x) + (mouseY - dot.y) * (mouseY - dot.y)))
            (irregularRadius noiseF mouseRadius time dot)), true) := by
    intro a
    simp only [pointerProximity]
    rw [if_pos hx, if_pos hd]
  refine ⟨h1, ?_⟩
  intro trail
  simp only [updateDot, h1]
  split_ifs <;> rfl

/-- A Math.sqrt stand-in correct at the single squared distance 25 of the
    C9 counterexample. -/
def sqrt25 : ℚ → ℚ := fun q => if q = 25 then 5 else 0

/-- **C9 counterexample** With the pointer at (0,0) — a legitimate
    position at the canvas's left edge — and the sample particle at (3,4),
    the pointer is within the noise-perturbed radius (distance 5 < 100),
    yet the particle is not marked as twinkling, because the code's
    `mouseRef.current.x > 0` guard skips the whole proximity check. -/
theorem c9_edge_pointer_counterexample :
    (updateDot sqrt25 (fun _ => 0) (fun _ _ _ _ => (1:ℚ)/2) 100 5 1 0 0 0 []
        sampleDot).isTwinkling = false ∧
      sqrt25 ((0 - sampleDot.x) * (0 - sampleDot.x) + (0 - sampleDot.y) * (0 - sampleDot.y))
        < irregularRadius (fun _ _ _ _ => (1:ℚ)/2) 100 0 sampleDot := by
  constructor
  · simp [updateDot, trailForces, pointerProximity]
  · norm_num [sqrt25, sampleDot, irregularRadius]

/-- Witness for C9: pointer at (3,4), exactly on the sample particle
    (distance 0 < radius 100, pointer x positive): marked twinkling. -/
theorem c9_pointer_twinkle_witness :
    (updateDot sqrtZero (fun _ => 0) (fun _ _ _ _ => (1:ℚ)/2) 100 5 1 0 3 4 []
      sampleDot).isTwinkling = true :=
  (c9_pointer_twinkle sqrtZero (fun _ => 0) (fun _ _ _ _ => (1:ℚ)/2) 100 5 1 0 3 4 sampleDot
    (by norm_num) (by norm_num [sqrtZero, irregularRadius, sampleDot])).2 []

/-- **C3 (amended)** In any frame in which the pointer trail contains zero
    entries, the rendered opacity of a particle equals 1 provided the live
    pointer does not trigger the proximity check (its x-coordinate is
    nonpositive, or it lies outside the particle's noise-perturbed
    radius).  Contrary to the original claim this is not independent of
    the pointer position: a pointer inside the radius lowers the opacity
    even with an empty trail. -/
theorem c3_empty_trail_opacity (sqrtF sinF : ℚ → ℚ) (noiseF : ℚ → ℚ → ℚ → ℚ → ℚ)
    (mouseRadius repulsionStrength returnSpeed time mouseX mouseY : ℚ) (dot : DotData)
    (hp : mouseX ≤ 0 ∨
        ¬ (sqrtF ((mouseX - dot.x) * (mouseX - dot.x) + (mouseY - dot.y) * (mouseY - dot.y)) <
            irregularRadius noiseF mouseRadius time dot)) :
    (updateDot sqrtF sinF noiseF mouseRadius repulsionStrength returnSpeed time
      mouseX mouseY [] dot).opacity = 1 := by
  have hacc : trailForces sqrtF noiseF mouseRadius repulsionStrength 1 time dot []
      = { maxFactor := 0, fx := 0, fy := 0 } := by
    simp [trailForces]
  have hpm : pointerProximity sqrtF noiseF mouseRadius time mouseX mouseY dot 0 = (0, false) := by
    simp only [pointerProximity]
    rcases hp with h | h
    · rw [if_neg (by linarith)]
    · by_cases hx : 0 < mouseX
      · rw [if_pos hx, if_neg h]
      · rw [if_neg hx]
  simp only [updateDot, hacc, hpm]
  norm_num

/-- A sample particle at (5,5) whose twinkle phase is one step before 0,
    so that the frame's phase advance lands exactly on 0, where the value
    of Math.sin is known exactly (sin 0 = 0). -/
def c3dot : DotData :=
  { x := 5, y := 5, baseX := 5, baseY := 5, baseSize := 1, brightness := 255,
    isAccent := false, sizeMultiplier := 1, twinklePhase := -(1/50),
    twinkleSpeed := 1/50, vx := 0, vy := 0 }

/-- **C3 counterexample** With an empty trail but the live pointer exactly
    at the particle's position (5,5), the proximity falloff is 1 and the
    rendered opacity is 13/20, not 1: opacity with an empty trail does
    depend on the pointer position. -/
theorem c3_pointer_presence_counterexample :
    (updateDot sqrtZero (fun _ => 0) (fun _ _ _ _ => (1:ℚ)/2) 100 5 1 0 5 5 []
        c3dot).opacity = 13/20 ∧ ((13:ℚ)/20) ≠ 1 := by
  constructor
  · norm_num [updateDot, trailForces, pointerProximity, irregularRadius, smoothFall,
      sqrtZero, c3dot]
  · norm_num

/-- Witness for C3: empty trail and the pointer parked at the off-canvas
    sentinel (-1000,-1000): opacity is 1. -/
theorem c3_empty_trail_opacity_witness :
    (updateDot sqrtZero (fun _ => 0) (fun _ _ _ _ => (1:ℚ)/2) 100 5 1 0 (-1000) (-1000) []
      sampleDot).opacity = 1 :=
  c3_empty_trail_opacity sqrtZero (fun _ => 0) (fun _ _ _ _ => (1:ℚ)/2) 100 5 1 0
    (-1000) (-1000) sampleDot (Or.inl (by norm_num))

/-- The smoothstep falloff lies in [0,1] whenever the distance is
    nonnegative and strictly inside the radius. -/
lemma smoothFall_bounds (d r : ℚ) (hd0 : 0 ≤ d) (hdr : d < r) :
    0 ≤ smoothFall d r ∧ smoothFall d r ≤ 1 := by
  have hr : 0 < r := lt_of_le_of_lt hd0 hdr
  have ht0 : 0 ≤ d / r := div_nonneg hd0 (le_of_lt hr)
  have ht1 : d / r < 1 := (div_lt_one hr).mpr hdr
  unfold smoothFall
  constructor
  · nlinarith [ht0, ht1, sq_nonneg (1 - d / r)]
  · nlinarith [mul_nonneg (mul_nonneg ht0 ht0) (by linarith : (0:ℚ) ≤ 3 - 2 * (d / r)),
      sq_nonneg (d / r), ht0, ht1]

/-- One step of the force fold keeps the running maximum falloff in [0,1]. -/
lemma accumPoint_maxFactor_bounds (sqrtF : ℚ → ℚ) (noiseF : ℚ → ℚ → ℚ → ℚ → ℚ)
    (mouseRadius repulsionStrength fadeOutFactor time : ℚ) (dot : DotData)
    (hs : ∀ q, 0 ≤ q → 0 ≤ sqrtF q) (acc : ForceAcc) (p : TrailPoint)
    (h0 : 0 ≤ acc.maxFactor) (h1 : acc.maxFactor ≤ 1) :
    0 ≤ (accumPoint sqrtF noiseF mouseRadius repulsionStrength fadeOutFactor time
        dot acc p).maxFactor ∧
      (accumPoint sqrtF noiseF mouseRadius repulsionStrength fadeOutFactor time
        dot acc p).maxFactor ≤ 1 := by
  have hd0 : 0 ≤ sqrtF ((p.x - dot.x) * (p.x - dot.x) + (p.y - dot.y) * (p.y - dot.y)) :=
    hs _ (add_nonneg (mul_self_nonneg _) (mul_self_nonneg _))
  simp only [accumPoint]
  split_ifs with ha hb hc
  · exact ⟨h0, h1⟩
  · have hsf := smoothFall_bounds _ _ hd0 hb
    exact ⟨le_trans h0 (le_max_left _ _), max_le h1 hsf.2⟩
  · have hsf := smoothFall_bounds _ _ hd0 hb
    exact ⟨le_trans h0 (le_max_left _ _), max_le h1 hsf.2⟩
  · exact ⟨h0, h1⟩

/-- The force fold over any trail keeps the running maximum falloff in [0,1]. -/
lemma foldl_accumPoint_bounds (sqrtF : ℚ → ℚ) (noiseF : ℚ → ℚ → ℚ → ℚ → ℚ)
    (mouseRadius repulsionStrength fadeOutFactor time : ℚ) (dot : DotData)
    (hs : ∀ q, 0 ≤ q → 0 ≤ sqrtF q) (trail : List TrailPoint) :
    ∀ acc : ForceAcc, 0 ≤ acc.maxFactor → acc.maxFactor ≤ 1 →
      0 ≤ (trail.foldl (accumPoint sqrtF noiseF mouseRadius repulsionStrength
          fadeOutFactor time dot) acc).maxFactor ∧
        (trail.foldl (accumPoint sqrtF noiseF mouseRadius repulsionStrength
          fadeOutFactor time dot) acc).maxFactor ≤ 1 := by
  induction trail with
  | nil => exact fun acc h0 h1 => ⟨h0, h1⟩
  | cons p rest ih =>
    intro acc h0 h1
    rw [List.foldl_cons]
    have h := accumPoint_maxFactor_bounds sqrtF noiseF mouseRadius repulsionStrength
      fadeOutFactor time dot hs acc p h0 h1
    exact ih _ h.1 h.2

/-- The maximum falloff produced by the force-accumulation step is in [0,1]. -/
lemma trailForces_maxFactor_bounds (sqrtF : ℚ → ℚ) (noiseF : ℚ → ℚ → ℚ → ℚ → ℚ)
    (mouseRadius repulsionStrength fadeOutFactor time : ℚ) (dot : DotData)
    (hs : ∀ q, 0 ≤ q → 0 ≤ sqrtF q) (trail : List TrailPoint) :
    0 ≤ (trailForces sqrtF noiseF mouseRadius repulsionStrength fadeOutFactor time
        dot trail).maxFactor ∧
      (trailForces sqrtF noiseF mouseRadius repulsionStrength fadeOutFactor time
        dot trail).maxFactor ≤ 1 := by
  simp only [trailForces]
  split_ifs with h
  · exact foldl_accumPoint_bounds sqrtF noiseF mouseRadius repulsionStrength
      fadeOutFactor time dot hs trail _ (le_refl 0) (by norm_num)
  · exact ⟨le_refl 0, by norm_num⟩

/-- The pointer proximity check keeps the maximum falloff in [0,1]. -/
lemma pointerProximity_fst_bounds (sqrtF : ℚ → ℚ) (noiseF : ℚ → ℚ → ℚ → ℚ → ℚ)
    (mouseRadius time mouseX mouseY : ℚ) (dot : DotData)
    (hs : ∀ q, 0 ≤ q → 0 ≤ sqrtF q) (accMax : ℚ)
    (h0 : 0 ≤ accMax) (h1 : accMax ≤ 1) :
    0 ≤ (pointerProximity sqrtF noiseF mouseRadius time mouseX mouseY dot accMax).1 ∧
      (pointerProximity sqrtF noiseF mouseRadius time mouseX mouseY dot accMax).1 ≤ 1 := by
  have hd0 : 0 ≤ sqrtF ((mouseX - dot.x) * (mouseX - dot.x) + (mouseY - dot.y) * (mouseY - dot.y)) :=
    hs _ (add_nonneg (mul_self_nonneg _) (mul_self_nonneg _))
  simp only [pointerProximity]
  split_ifs with ha hb
  · have hsf := smoothFall_bounds _ _ hd0 hb
    exact ⟨le_trans h0 (le_max_left _ _), max_le h1 hsf.2⟩
  · exact ⟨h0, h1⟩
  · exact ⟨h0, h1⟩

/-- The blended twinkle opacity stays in [3/10, 1] for a maximum falloff
    m in [0,1] and a twinkle value tw in [0,1]. -/
lemma twinkle_opacity_bounds (m tw : ℚ) (hm0 : 0 ≤ m) (hm1 : m ≤ 1)
    (ht0 : 0 ≤ tw) (ht1 : tw ≤ 1) :
    3/10 ≤ 1 - (1 - (0.3 + tw * 0.7) * m * 1) * m * 1 ∧
      1 - (1 - (0.3 + tw * 0.7) * m * 1) * m * 1 ≤ 1 := by
  constructor
  · nlinarith [mul_nonneg (sub_nonneg.mpr hm1) (by linarith : (0:ℚ) ≤ 7/10 - 3/10 * m),
      mul_nonneg ht0 (mul_self_nonneg m)]
  · have ha : (0.3 + tw * 0.7) * m ≤ m := by
      nlinarith [mul_nonneg hm0 (sub_nonneg.mpr ht1)]
    nlinarith [mul_nonneg (by linarith : (0:ℚ) ≤ 1 - (0.3 + tw * 0.7) * m) hm0]

/-- **C10** For every particle in every frame, under the facts true of the
    real Math.sqrt (nonnegative on nonnegative inputs) and Math.sin
    (bounded by 1 in absolute value), the rendered opacity lies in
    [3/10, 1]: a particle under interaction is never rendered below 30%
    opacity and never above full opacity. -/
theorem c10_opacity_bounds (sqrtF sinF : ℚ → ℚ) (noiseF : ℚ → ℚ → ℚ → ℚ → ℚ)
    (mouseRadius repulsionStrength returnSpeed time mouseX mouseY : ℚ)
    (trail : List TrailPoint) (dot : DotData)
    (hs : ∀ q, 0 ≤ q → 0 ≤ sqrtF q)
    (hsin : ∀ q, -1 ≤ sinF q ∧ sinF q ≤ 1) :
    3/10 ≤ (updateDot sqrtF sinF noiseF mouseRadius repulsionStrength returnSpeed time
        mouseX mouseY trail dot).opacity ∧
      (updateDot sqrtF sinF noiseF mouseRadius repulsionStrength returnSpeed time
        mouseX mouseY trail dot).opacity ≤ 1 := by
  have hacc := trailForces_maxFactor_bounds sqrtF noiseF mouseRadius repulsionStrength
    1 time dot hs trail
  have hm := pointerProximity_fst_bounds sqrtF noiseF mouseRadius time mouseX mouseY
    dot hs _ hacc.1 hacc.2
  have ht0 : 0 ≤ sinF (dot.twinklePhase + dot.twinkleSpeed) * 0.5 + 0.5 := by
    have := (hsin (dot.twinklePhase + dot.twinkleSpeed)).1
    linarith
  have ht1 : sinF (dot.twinklePhase + dot.twinkleSpeed) * 0.5 + 0.5 ≤ 1 := by
    have := (hsin (dot.twinklePhase + dot.twinkleSpeed)).2
    linarith
  simp only [updateDot, apply_ite FrameOut.opacity]
  split_ifs with h
  · exact twinkle_opacity_bounds _ _ hm.1 hm.2 ht0 ht1
  · norm_num

/-- Witness for C10 at a fully concrete frame: empty trail, pointer on the
    sample particle, zero stand-ins for Math.sqrt and Math.sin. -/
theorem c10_opacity_bounds_witness :
    3/10 ≤ (updateDot sqrtZero (fun _ => 0) (fun _ _ _ _ => (1:ℚ)/2) 100 5 1 0 3 4 []
        sampleDot).opacity ∧
      (updateDot sqrtZero (fun _ => 0) (fun _ _ _ _ => (1:ℚ)/2) 100 5 1 0 3 4 []
        sampleDot).opacity ≤ 1 :=
  c10_opacity_bounds sqrtZero (fun _ => 0) (fun _ _ _ _ => (1:ℚ)/2) 100 5 1 0 3 4 []
    sampleDot (fun q hq => le_refl 0) (fun q => by norm_num)

/-- The coordinates visited by the generation loop
    `for (v = 0; v < limit; v += step)` (source lines 187-188): for a
    positive step these are exactly the multiples k*step below limit,
    i.e. k ranges over 0 <= k < ceil(limit/step). -/
def gridCoords (limit step : ℚ) : List ℚ :=
  (List.range ⌈limit / step⌉.toNat).map (fun (k : ℕ) => (k : ℚ) * step)

/-- Sanity check that `gridCoords` is the loop's visit set: for a positive
    step, q is visited iff q = k*step for a natural k with k*step < limit. -/
lemma mem_gridCoords (limit step : ℚ) (hstep : 0 < step) (q : ℚ) :
    q ∈ gridCoords limit step ↔ ∃ k : ℕ, q = (k : ℚ) * step ∧ (k : ℚ) * step < limit := by
  simp only [gridCoords, List.mem_map, List.mem_range]
  constructor
  · rintro ⟨k, hk, rfl⟩
    refine ⟨k, rfl, ?_⟩
    have hk' : (k : ℤ) < ⌈limit / step⌉ := Int.lt_toNat.mp hk
    have : (k : ℚ) < limit / step := by exact_mod_cast Int.lt_ceil.mp hk'
    calc (k : ℚ) * step < (limit / step) * step := by
          exact mul_lt_mul_of_pos_right this hstep
      _ = limit := div_mul_cancel₀ limit (ne_of_gt hstep)
  · rintro ⟨k, rfl, hlt⟩
    refine ⟨k, ?_, rfl⟩
    have : (k : ℚ) < limit / step := (lt_div_iff₀ hstep).mpr hlt
    have hk' : (k : ℤ) < ⌈limit / step⌉ := Int.lt_ceil.mpr (by exact_mod_cast this)
    exact Int.lt_toNat.mpr hk'

/-- The flat pixel-buffer index of the sample for the cell origin (x,y)
    (source lines 190-192): `(floor(y*dpr) * canvas.width + floor(x*dpr)) * 4`. -/
def sampleIndex (canvasW dpr x y : ℚ) : ℚ :=
  ((⌊y * dpr⌋ : ℚ) * canvasW + (⌊x * dpr⌋ : ℚ)) * 4

/-- The brightness the generation loop uses for the cell with origin (x,y)
    (source line 193): the mean of the three channels at the sample index
    of the cell origin. -/
def cellBrightness (data : ℚ → ℚ) (canvasW dpr x y : ℚ) : ℚ :=
  (data (sampleIndex canvasW dpr x y) + data (sampleIndex canvasW dpr x y + 1) +
    data (sampleIndex canvasW dpr x y + 2)) / 3

/-- Modelled from the spec: "For each cell, sample brightness as the mean
    of R,G,B at the cell center (sampled from the device-resolution
    buffer, accounting for device pixel ratio)" — the brightness sampled
    at the point offset by half the adjusted cell size from the cell
    origin.  This definition follows the spec's words, for comparison with
    `cellBrightness`, which follows the source. -/
def cellBrightnessSpec (data : ℚ → ℚ) (canvasW dpr cs x y : ℚ) : ℚ :=
  cellBrightness data canvasW dpr (x + cs / 2) (y + cs / 2)

/-- The particle-generation pass of the mount effect (source lines
    183-220).  `rnd` is an oracle for the Math.random() draws: draw j of
    the cell with origin (x,y) is `rnd x y j`, numbered in evaluation
    order (0 sizeMultiplier, 1 isAccent, 2 twinklePhase, 3 twinkleSpeed);
    `twoPi` stands for the double value of `Math.PI * 2`. -/
def genDots (halftoneSize scale accentProbability sizeVariation twoPi dpr
    canvasW displayWidth displayHeight : ℚ) (data : ℚ → ℚ)
    (rnd : ℚ → ℚ → ℕ → ℚ) : List DotData :=
  let cs := max 2 (halftoneSize * scale)
  (gridCoords displayHeight cs).flatMap (fun y =>
    (gridCoords displayWidth cs).flatMap (fun x =>
      let brightness := cellBrightness data canvasW dpr x y
      if 0.5 < brightness / 255 * cs * 0.9 then
        [{ x := x + cs / 2, y := y + cs / 2, baseX := x + cs / 2, baseY := y + cs / 2,
           baseSize := brightness / 255 * cs * 0.9, brightness := brightness,
           isAccent := decide (rnd x y 1 < accentProbability) && decide (150 < brightness),
           sizeMultiplier := 1 + (rnd x y 0 - 0.5) * sizeVariation,
           twinklePhase := rnd x y 2 * twoPi,
           twinkleSpeed := 0.02 + rnd x y 3 * 0.03,
           vx := 0, vy := 0 }]
      else []))

/-- Modelled from the spec: the generation pass as the spec words it, with
    the brightness sampled at the cell center instead of the cell origin;
    otherwise identical to `genDots`.  Used only to compare against the
    source's behaviour. -/
def genDotsSpec (halftoneSize scale accentProbability sizeVariation twoPi dpr
    canvasW displayWidth displayHeight : ℚ) (data : ℚ → ℚ)
    (rnd : ℚ → ℚ → ℕ → ℚ) : List DotData :=
  let cs := max 2 (halftoneSize * scale)
  (gridCoords displayHeight cs).flatMap (fun y =>
    (gridCoords displayWidth cs).flatMap (fun x =>
      let brightness := cellBrightnessSpec data canvasW dpr cs x y
      if 0.5 < brightness / 255 * cs * 0.9 then
        [{ x := x + cs / 2, y := y + cs / 2, baseX := x + cs / 2, baseY := y + cs / 2,
           baseSize := brightness / 255 * cs * 0.9, brightness := brightness,
           isAccent := decide (rnd x y 1 < accentProbability) && decide (150 < brightness),
           sizeMultiplier := 1 + (rnd x y 0 - 0.5) * sizeVariation,
           twinklePhase := rnd x y 2 * twoPi,
           twinkleSpeed := 0.02 + rnd x y 3 * 0.03,
           vx := 0, vy := 0 }]
      else []))

/-- The particle-regeneration pass of the resize callback (source lines
    376-406); identical computation to `genDots` except the evaluation
    order of the random draws inside the object literal (0 isAccent,
    1 sizeMultiplier, 2 twinklePhase, 3 twinkleSpeed). -/
def genDotsResize (halftoneSize scale accentProbability sizeVariation twoPi dpr
    canvasW newWidth newHeight : ℚ) (data : ℚ → ℚ)
    (rnd : ℚ → ℚ → ℕ → ℚ) : List DotData :=
  let cs := max 2 (halftoneSize * scale)
  (gridCoords newHeight cs).flatMap (fun y =>
    (gridCoords newWidth cs).flatMap (fun x =>
      let brightness := cellBrightness data canvasW dpr x y
      if 0.5 < brightness / 255 * cs * 0.9 then
        [{ x := x + cs / 2, y := y + cs / 2, baseX := x + cs / 2, baseY := y + cs / 2,
           baseSize := brightness / 255 * cs * 0.9, brightness := brightness,
           isAccent := decide (rnd x y 0 < accentProbability) && decide (150 < brightness),
           sizeMultiplier := 1 + (rnd x y 1 - 0.5) * sizeVariation,
           twinklePhase := rnd x y 2 * twoPi,
           twinkleSpeed := 0.02 + rnd x y 3 * 0.03,
           vx := 0, vy := 0 }]
      else []))

/-- The state observed by the resize callback: the last accepted container
    size (locals lastWidth, lastHeight) and the particle set (dotsRef). -/
structure ResizeState where
  lastWidth : ℚ
  lastHeight : ℚ
  dots : List DotData
deriving DecidableEq, Repr

/-- One resize-observer callback (source lines 335-410): regeneration
    happens only for positive new dimensions whose delta from the last
    accepted size exceeds 5px in at least one axis; `data w h` is the
    pixel buffer obtained from redrawing the image at size (w,h). -/
def resizeStep (imageW imageH dpr halftoneSize accentProbability sizeVariation twoPi : ℚ)
    (data : ℚ → ℚ → ℚ → ℚ) (rnd : ℚ → ℚ → ℕ → ℚ)
    (s : ResizeState) (newW newH : ℚ) : ResizeState :=
  if 0 < newW ∧ 0 < newH ∧ (5 < |newW - s.lastWidth| ∨ 5 < |newH - s.lastHeight|) then
    { lastWidth := newW, lastHeight := newH,
      dots := genDotsResize halftoneSize (max (newW / imageW) (newH / imageH))
        accentProbability sizeVariation twoPi dpr (newW * dpr) newW newH
        (data newW newH) rnd }
  else s

/-- **C7** A particle is created for a grid cell (its rest position is the
    cell's center) if and only if the cell's computed dot diameter
    `(brightness/255) * cellSize * 0.9` is strictly greater than 0.5: a
    diameter of exactly 0.5 produces no particle, any diameter above 0.5
    does. -/
theorem c7_dot_threshold (halftoneSize scale accentProbability sizeVariation twoPi dpr
    canvasW displayWidth displayHeight : ℚ) (data : ℚ → ℚ) (rnd : ℚ → ℚ → ℕ → ℚ)
    (cs : ℚ) (hcs : cs = max 2 (halftoneSize * scale)) (gx gy : ℚ)
    (hy : gy ∈ gridCoords displayHeight cs) (hx : gx ∈ gridCoords displayWidth cs) :
    (∃ d ∈ genDots halftoneSize scale accentProbability sizeVariation twoPi dpr
        canvasW displayWidth displayHeight data rnd,
        d.baseX = gx + cs / 2 ∧ d.baseY = gy + cs / 2) ↔
      0.5 < cellBrightness data canvasW dpr gx gy / 255 * cs * 0.9 := by
  subst hcs
  constructor
  · rintro ⟨d, hd, hbx, hby⟩
    simp only [genDots, List.mem_flatMap] at hd
    obtain ⟨y', hy', x', hx', hin⟩ := hd
    split at hin
    case isTrue hcond =>
      simp only [List.mem_singleton] at hin
      subst hin
      simp only at hbx hby
      have hxx : x' = gx := by linarith [hbx]
      have hyy : y' = gy := by linarith [hby]
      rw [hxx, hyy] at hcond
      exact hcond
    case isFalse => simp at hin
  · intro hcond
    refine ⟨{ x := gx + max 2 (halftoneSize * scale) / 2,
              y := gy + max 2 (halftoneSize * scale) / 2,
              baseX := gx + max 2 (halftoneSize * scale) / 2,
              baseY := gy + max 2 (halftoneSize * scale) / 2,
              baseSize := cellBrightness data canvasW dpr gx gy / 255 *
                max 2 (halftoneSize * scale) * 0.9,
              brightness := cellBrightness data canvasW dpr gx gy,
              isAccent := decide (rnd gx gy 1 < accentProbability) &&
                decide (150 < cellBrightness data canvasW dpr gx gy),
              sizeMultiplier := 1 + (rnd gx gy 0 - 0.5) * sizeVariation,
              twinklePhase := rnd gx gy 2 * twoPi,
              twinkleSpeed := 0.02 + rnd gx gy 3 * 0.03,
              vx := 0, vy := 0 }, ?_, rfl, rfl⟩
    simp only [genDots, List.mem_flatMap]
    refine ⟨gy, hy, gx, hx, ?_⟩
    rw [if_pos hcond]
    exact List.mem_singleton_self _

/-- Membership of the origin in a grid whose index count is positive. -/
lemma zero_mem_gridCoords (limit step : ℚ) (h : 0 < ⌈limit / step⌉.toNat) :
    (0:ℚ) ∈ gridCoords limit step :=
  List.mem_map.mpr ⟨0, List.mem_range.mpr h, by norm_num⟩

/-- Witness for C7 on a concrete 2x2-px surface with an all-white buffer:
    the single cell's diameter is (255/255)*2*0.9 = 1.8 > 0.5, and the
    equivalence instantiates accordingly. -/
theorem c7_dot_threshold_witness :
    (∃ d ∈ genDots 2 1 0 0 6 1 2 2 2 (fun _ => 255) (fun _ _ _ => 0),
        d.baseX = 0 + 2 / 2 ∧ d.baseY = 0 + 2 / 2) ↔
      0.5 < cellBrightness (fun _ => 255) 2 1 0 0 / 255 * 2 * 0.9 := by
  have hm : (0:ℚ) ∈ gridCoords 2 2 := by
    apply zero_mem_gridCoords
    rw [show ⌈(2:ℚ) / 2⌉ = (1:ℤ) from by norm_num]
    decide
  exact c7_dot_threshold 2 1 0 0 6 1 2 2 2 (fun _ => 255) (fun _ _ _ => 0) 2
    (by norm_num) 0 0 hm hm

/-- **C2 (amended)** During particle generation, every generated dot's
    stored brightness is the sample taken at its cell's ORIGIN — the flat
    index `(floor(y*dpr) * canvasWidth + floor(x*dpr)) * 4` built from the
    loop coordinates (x,y) of the cell, read from the device-resolution
    buffer with the device-pixel-ratio scaling applied — not at the cell
    center; the center (origin offset by half the adjusted cell size) is
    used only as the dot's rest position. -/
theorem c2_brightness_from_origin (halftoneSize scale accentProbability sizeVariation
    twoPi dpr canvasW displayWidth displayHeight : ℚ) (data : ℚ → ℚ)
    (rnd : ℚ → ℚ → ℕ → ℚ) (cs : ℚ) (hcs : cs = max 2 (halftoneSize * scale))
    (d : DotData)
    (hd : d ∈ genDots halftoneSize scale accentProbability sizeVariation twoPi dpr
      canvasW displayWidth displayHeight data rnd) :
    ∃ gy ∈ gridCoords displayHeight cs, ∃ gx ∈ gridCoords displayWidth cs,
      d.baseX = gx + cs / 2 ∧ d.baseY = gy + cs / 2 ∧
        d.brightness = cellBrightness data canvasW dpr gx gy := by
  subst hcs
  simp only [genDots, List.mem_flatMap] at hd
  obtain ⟨y', hy', x', hx', hin⟩ := hd
  split at hin
  case isTrue hcond =>
    simp only [List.mem_singleton] at hin
    subst hin
    exact ⟨y', hy', x', hx', rfl, rfl, rfl⟩
  case isFalse => simp at hin

/-- The concrete 2x2-px device buffer of the C2 counterexample: black
    except for a white pixel at device coordinates (1,1) (flat indices
    12-14), which is the center of the single 2x2 grid cell. -/
def c2data : ℚ → ℚ := fun i => if 12 ≤ i ∧ i ≤ 14 then 255 else 0

/-- **C2 counterexample** On a 2x2 surface with dpr 1 and cell size 2, the
    code samples the single cell at its origin (0,0) (brightness 0, so no
    particle at all), while sampling at the cell center (1,1) as the claim
    states would read brightness 255 and create a particle: the brightness
    is not sampled at the cell center. -/
theorem c2_center_sampling_counterexample :
    cellBrightness c2data 2 1 0 0 = 0 ∧
      cellBrightnessSpec c2data 2 1 2 0 0 = 255 ∧
      genDots 2 1 0 0 6 1 2 2 2 c2data (fun _ _ _ => 0) = [] ∧
      genDotsSpec 2 1 0 0 6 1 2 2 2 c2data (fun _ _ _ => 0) ≠ [] := by
  have hb0 : cellBrightness c2data 2 1 0 0 = 0 := by
    norm_num [cellBrightness, sampleIndex, c2data]
  have hb1 : cellBrightnessSpec c2data 2 1 2 0 0 = 255 := by
    norm_num [cellBrightnessSpec, cellBrightness, sampleIndex, c2data]
  have hg : gridCoords 2 2 = [0] := by
    simp only [gridCoords]
    rw [show ⌈(2:ℚ) / 2⌉ = (1:ℤ) from by norm_num]
    norm_num [List.range_succ]
  have hmax : max (2:ℚ) (2 * 1) = 2 := by norm_num
  refine ⟨hb0, hb1, ?_, ?_⟩
  · simp only [genDots, hmax, hg, List.flatMap_cons, List.flatMap_nil]
    rw [if_neg (by rw [hb0]; norm_num)]
    simp
  · simp only [genDotsSpec, hmax, hg, List.flatMap_cons, List.flatMap_nil]
    rw [if_pos (by rw [hb1]; norm_num)]
    simp

/-- Witness for C2 on a concrete 2x2 all-white surface: the single
    generated dot rests at the cell center (1,1) and its brightness is the
    origin sample of its cell. -/
theorem c2_brightness_from_origin_witness :
    ∃ gy ∈ gridCoords 2 2, ∃ gx ∈ gridCoords 2 2,
      ({ x := 1, y := 1, baseX := 1, baseY := 1, baseSize := 9/5, brightness := 255,
         isAccent := false, sizeMultiplier := 1, twinklePhase := 0, twinkleSpeed := 1/50,
         vx := 0, vy := 0 } : DotData).baseX = gx + 2 / 2 ∧
        ({ x := 1, y := 1, baseX := 1, baseY := 1, baseSize := 9/5, brightness := 255,
           isAccent := false, sizeMultiplier := 1, twinklePhase := 0, twinkleSpeed := 1/50,
           vx := 0, vy := 0 } : DotData).baseY = gy + 2 / 2 ∧
        ({ x := 1, y := 1, baseX := 1, baseY := 1, baseSize := 9/5, brightness := 255,
           isAccent := false, sizeMultiplier := 1, twinklePhase := 0, twinkleSpeed := 1/50,
           vx := 0, vy := 0 } : DotData).brightness
          = cellBrightness (fun _ => 255) 2 1 gx gy := by
  have hb : cellBrightness (fun _ => (255:ℚ)) 2 1 0 0 = 255 := by
    norm_num [cellBrightness, sampleIndex]
  have hg : gridCoords 2 2 = [0] := by
    simp only [gridCoords]
    rw [show ⌈(2:ℚ) / 2⌉ = (1:ℤ) from by norm_num]
    norm_num [List.range_succ]
  have hmax : max (2:ℚ) (2 * 1) = 2 := by norm_num
  apply c2_brightness_from_origin 2 1 0 0 6 1 2 2 2 (fun _ => 255) (fun _ _ _ => 0) 2
    (by norm_num)
  simp only [genDots, hmax, hg, List.flatMap_cons, List.flatMap_nil]
  rw [if_pos (by rw [hb]; norm_num)]
  norm_num [hb, List.mem_singleton]

/-- Every particle produced by the regeneration pass starts at its rest
    position with zero velocity. -/
lemma genDotsResize_at_rest (halftoneSize scale accentProbability sizeVariation twoPi
    dpr canvasW newWidth newHeight : ℚ) (data : ℚ → ℚ) (rnd : ℚ → ℚ → ℕ → ℚ) :
    ∀ d ∈ genDotsResize halftoneSize scale accentProbability sizeVariation twoPi dpr
        canvasW newWidth newHeight data rnd,
      d.x = d.baseX ∧ d.y = d.baseY ∧ d.vx = 0 ∧ d.vy = 0 := by
  intro d hd
  simp only [genDotsResize, List.mem_flatMap] at hd
  obtain ⟨y', hy', x', hx', hin⟩ := hd
  split at hin
  case isTrue =>
    simp only [List.mem_singleton] at hin
    subst hin
    exact ⟨rfl, rfl, rfl, rfl⟩
  case isFalse => simp at hin

/-- **C6 (amended)** A resize event whose width and height deltas are both
    below 5px leaves the whole state — particle set, velocities, twinkle
    phases — unchanged; a resize event with both new dimensions positive
    and a delta of at least 6px in at least one dimension triggers full
    particle regeneration, after which every particle's position equals
    its rest position and its velocity is (0,0).  The positivity
    requirement is the code's `newWidth > 0 && newHeight > 0` guard, which
    the original claim omits. -/
theorem c6_resize_hysteresis (imageW imageH dpr halftoneSize accentProbability
    sizeVariation twoPi : ℚ) (data : ℚ → ℚ → ℚ → ℚ) (rnd : ℚ → ℚ → ℕ → ℚ)
    (s : ResizeState) (newW newH : ℚ) :
    (|newW - s.lastWidth| < 5 → |newH - s.lastHeight| < 5 →
      resizeStep imageW imageH dpr halftoneSize accentProbability sizeVariation twoPi
        data rnd s newW newH = s) ∧
    (0 < newW → 0 < newH →
      (6 ≤ |newW - s.lastWidth| ∨ 6 ≤ |newH - s.lastHeight|) →
      (resizeStep imageW imageH dpr halftoneSize accentProbability sizeVariation twoPi
        data rnd s newW newH).dots
        = genDotsResize halftoneSize (max (newW / imageW) (newH / imageH))
            accentProbability sizeVariation twoPi dpr (newW * dpr) newW newH
            (data newW newH) rnd ∧
      ∀ d ∈ (resizeStep imageW imageH dpr halftoneSize accentProbability sizeVariation
          twoPi data rnd s newW newH).dots,
        d.x = d.baseX ∧ d.y = d.baseY ∧ d.vx = 0 ∧ d.vy = 0) := by
  constructor
  · intro h1 h2
    simp only [resizeStep]
    rw [if_neg]
    rintro ⟨-, -, hc | hc⟩ <;> linarith
  · intro hW hH hd
    have hcond : 0 < newW ∧ 0 < newH ∧
        (5 < |newW - s.lastWidth| ∨ 5 < |newH - s.lastHeight|) := by
      refine ⟨hW, hH, ?_⟩
      rcases hd with h | h
      · exact Or.inl (by linarith)
      · exact Or.inr (by linarith)
    simp only [resizeStep]
    rw [if_pos hcond]
    exact ⟨rfl, genDotsResize_at_rest halftoneSize (max (newW / imageW) (newH / imageH))
      accentProbability sizeVariation twoPi dpr (newW * dpr) newW newH
      (data newW newH) rnd⟩

/-- A particle displaced from its rest position and still moving,
    populating the C6 counterexample's pre-resize state. -/
def c6dot : DotData :=
  { x := 10, y := 10, baseX := 3, baseY := 4, baseSize := 1, brightness := 255,
    isAccent := false, sizeMultiplier := 1, twinklePhase := 0, twinkleSpeed := 0,
    vx := 7, vy := 0 }

/-- **C6 counterexample** A resize event from (100,100) to (0,100) has a
    width delta of 100 >= 6px, yet triggers no regeneration: the
    `newWidth > 0` guard fails and the previous particle — away from its
    rest position with velocity (7,0) — survives unchanged, contradicting
    the claim that any >= 6px-delta resize regenerates. -/
theorem c6_zero_width_counterexample :
    resizeStep 100 100 1 10 0 0 6 (fun _ _ _ => 0) (fun _ _ _ => 0)
        { lastWidth := 100, lastHeight := 100, dots := [c6dot] } 0 100
      = { lastWidth := 100, lastHeight := 100, dots := [c6dot] } ∧
      (6:ℚ) ≤ |(0:ℚ) - 100| ∧ c6dot.vx ≠ 0 := by
  refine ⟨?_, by rw [abs_of_nonpos (by norm_num)]; norm_num, by norm_num [c6dot]⟩
  simp only [resizeStep]
  rw [if_neg]
  rintro ⟨h, -, -⟩
  exact absurd h (by norm_num)

/-- Witness for C6: a (103,101) resize of a (100,100) container (deltas 3
    and 1, both below 5) is ignored, and a (200,100) resize (width delta
    100 >= 6, both dimensions positive) replaces the particle set with the
    regeneration pass's output. -/
theorem c6_resize_hysteresis_witness :
    resizeStep 100 100 1 10 0 0 6 (fun _ _ _ => 0) (fun _ _ _ => 0)
        { lastWidth := 100, lastHeight := 100, dots := [c6dot] } 103 101
      = { lastWidth := 100, lastHeight := 100, dots := [c6dot] } ∧
      (resizeStep 100 100 1 10 0 0 6 (fun _ _ _ => 0) (fun _ _ _ => 0)
        { lastWidth := 100, lastHeight := 100, dots := [c6dot] } 200 100).dots
        = genDotsResize 10 (max ((200:ℚ) / 100) (100 / 100)) 0 0 6 1 (200 * 1) 200 100
            ((fun _ _ _ => (0:ℚ)) 200 100) (fun _ _ _ => 0) := by
  constructor
  · exact (c6_resize_hysteresis 100 100 1 10 0 0 6 (fun _ _ _ => 0) (fun _ _ _ => 0)
      { lastWidth := 100, lastHeight := 100, dots := [c6dot] } 103 101).1
      (by rw [abs_of_nonneg (by norm_num)]; norm_num)
      (by rw [abs_of_nonneg (by norm_num)]; norm_num)
  · exact ((c6_resize_hysteresis 100 100 1 10 0 0 6 (fun _ _ _ => 0) (fun _ _ _ => 0)
      { lastWidth := 100, lastHeight := 100, dots := [c6dot] } 200 100).2
      (by norm_num) (by norm_num)
      (Or.inl (by rw [abs_of_nonneg (by norm_num)]; norm_num))).1
